import Mathlib

/-!
Verification of the premium aggregation and period-accounting engine of the
wheel-strategy tracker (src/lib/database.py) and of the position ledger
updater (src/components/trade_dialog.py).

Dates are modelled as proleptic-Gregorian calendar dates; `SDate.ord` is the
day count of a date (the standard civil-days algorithm), so that
`b.ord - a.ord` equals Python's `(b - a).days` and SQLite's string comparison
of ISO dates agrees with comparison of ordinals.

Monetary amounts are modelled as rationals, trade ledgers as lists of trade
records in the order the store returns them.
-/

namespace WheelTracker

/-- A calendar date `year-month-day`. -/
structure SDate where
  year : Int
  month : Int
  day : Int
  deriving DecidableEq, Repr

/-- `calendar.isleap`: leap year test of the Gregorian calendar. -/
def isleap (y : Int) : Bool := y % 4 == 0 && (y % 100 != 0 || y % 400 == 0)

/-- Days since 1970-01-01 of a civil date (Hinnant's days-from-civil
algorithm, the semantics of Python `datetime.date` subtraction). -/
def daysFromCivil (y m d : Int) : Int :=
  let yAdj := if m ≤ 2 then y - 1 else y
  let era := Int.fdiv yAdj 400
  let yoe := yAdj - era * 400
  let mp := (m + 9) % 12
  let doy := Int.fdiv (153 * mp + 2) 5 + d - 1
  let doe := yoe * 365 + Int.fdiv yoe 4 - Int.fdiv yoe 100 + doy
  era * 146097 + doe - 719468

/-- The ordinal day number of a date. -/
def SDate.ord (dt : SDate) : Int := daysFromCivil dt.year dt.month dt.day

/-- Trade type tag set (`trades.type` CHECK constraint). -/
inductive TradeType where
  | CSP | CC | ASSIGNMENT | CLOSE | ROLL | BUY | SELL
  deriving DecidableEq, Repr

/-- Trade status tag set (`trades.status` CHECK constraint). -/
inductive TradeStatus where
  | OPEN | CLOSED | EXPIRED | ASSIGNED
  deriving DecidableEq, Repr

/-- A trade record (the columns the accounting engine reads). -/
structure Trade where
  ticker : String
  type : TradeType
  premium : ℚ
  quantity : Int
  status : TradeStatus
  openedAt : SDate
  deriving DecidableEq, Repr

/-- Whether a trade is of type CC or CSP (`type IN ('CC','CSP')`). -/
def isPremiumType (ty : TradeType) : Bool :=
  match ty with
  | .CC => true
  | .CSP => true
  | _ => false

/-- Whether a trade counts toward premium totals:
`type IN ('CC','CSP') AND status != 'OPEN'`. -/
def countsPremium (t : Trade) : Bool :=
  isPremiumType t.type && (t.status != TradeStatus.OPEN)

/-- Realized dollar value of one trade: `premium * quantity * 100`. -/
def realized (t : Trade) : ℚ := t.premium * (t.quantity : ℚ) * 100

/-- Sum of realized premium over the trades of a ledger satisfying `p`
together with the CC/CSP-and-not-open condition (the shape of every
`SELECT COALESCE(SUM(premium*quantity*100),0) ... WHERE ...` query). -/
def premiumSum (l : List Trade) (p : Trade → Bool) : ℚ :=
  ((l.filter fun t => countsPremium t && p t).map realized).sum

/-- `get_first_trade_date`: the earliest `opened_at` date among CC/CSP
trades (any status), or `none` when there is no such trade. -/
def firstTradeDate (l : List Trade) : Option SDate :=
  (l.filter fun t => isPremiumType t.type).foldl
    (fun acc t =>
      match acc with
      | none => some t.openedAt
      | some d => if t.openedAt.ord < d.ord then some t.openedAt else some d)
    none

/-- `get_current_week_number`: 0 with no anchor, else
`(today - first_trade).days // 7 + 1` (Python floor division). -/
def currentWeekNumber (l : List Trade) (today : SDate) : Int :=
  match firstTradeDate l with
  | none => 0
  | some ft => Int.fdiv (today.ord - ft.ord) 7 + 1

/-- Ordinal of the current week's start date:
`first_trade + timedelta(days=((today-first_trade).days // 7) * 7)` when an
anchor exists, else `today`. -/
def currentWeekStartOrd (l : List Trade) (today : SDate) : Int :=
  match firstTradeDate l with
  | none => today.ord
  | some ft => ft.ord + Int.fdiv (today.ord - ft.ord) 7 * 7

/-- This week's premium: realized CC/CSP premium with
`date(opened_at) >= current_week_start`. -/
def weekPremium (l : List Trade) (today : SDate) : ℚ :=
  premiumSum l fun t => decide (currentWeekStartOrd l today ≤ t.openedAt.ord)

/-- This month's premium: realized CC/CSP premium with
`strftime('%Y-%m', opened_at) = strftime('%Y-%m','now')`. -/
def monthPremium (l : List Trade) (today : SDate) : ℚ :=
  premiumSum l fun t =>
    t.openedAt.year == today.year && t.openedAt.month == today.month

/-- The year used for the YTD premium query: the first trade's year when an
anchor exists, else the current calendar year. -/
def startYear (l : List Trade) (today : SDate) : Int :=
  match firstTradeDate l with
  | none => today.year
  | some ft => ft.year

/-- YTD premium: realized CC/CSP premium with
`strftime('%Y', opened_at) = str(start_year)`. -/
def ytdPremium (l : List Trade) (today : SDate) : ℚ :=
  premiumSum l fun t => t.openedAt.year == startYear l today

/-- The distinct years of counted trades, as produced by `GROUP BY year`. -/
def tradeYears (l : List Trade) : List Int :=
  ((l.filter countsPremium).map fun t => t.openedAt.year).dedup

/-- The `yearly` mapping: each year present in the ledger paired with that
year's total realized CC/CSP premium. -/
def yearlyPremiums (l : List Trade) : List (Int × ℚ) :=
  (tradeYears l).map fun y => (y, premiumSum l fun t => t.openedAt.year == y)

/-- Year-end projection (the tail of `get_premium_summary`): anchored linear
projection when the first trade's year equals the current year, otherwise a
calendar-year projection; a non-positive days-elapsed divisor yields 0. -/
def projectedPremium (l : List Trade) (today : SDate) : ℚ :=
  let ytd := ytdPremium l today
  match firstTradeDate l with
  | some ft =>
    if ft.year = today.year then
      let daysElapsed := today.ord - ft.ord + 1
      let daysRemaining := (SDate.mk today.year 12 31).ord - today.ord
      let totalDays := daysElapsed + daysRemaining
      if 0 < daysElapsed then ytd / (daysElapsed : ℚ) * (totalDays : ℚ) else 0
    else
      let daysElapsed := today.ord - (SDate.mk today.year 1 1).ord + 1
      let daysInYear : Int := if isleap today.year then 366 else 365
      if 0 < daysElapsed then ytd / (daysElapsed : ℚ) * (daysInYear : ℚ) else 0
  | none =>
    let daysElapsed := today.ord - (SDate.mk today.year 1 1).ord + 1
    let daysInYear : Int := if isleap today.year then 366 else 365
    if 0 < daysElapsed then ytd / (daysElapsed : ℚ) * (daysInYear : ℚ) else 0

/-- The structure returned by `get_premium_summary`. -/
structure PremiumSummary where
  week : ℚ
  weekNumber : Int
  month : ℚ
  ytd : ℚ
  yearly : List (Int × ℚ)
  projected : ℚ
  firstTrade : Option SDate
  deriving DecidableEq, Repr

/-- `get_premium_summary`, assembled from the pieces above. -/
def premiumSummary (l : List Trade) (today : SDate) : PremiumSummary :=
  { week := weekPremium l today
    weekNumber := currentWeekNumber l today
    month := monthPremium l today
    ytd := ytdPremium l today
    yearly := yearlyPremiums l
    projected := projectedPremium l today
    firstTrade := firstTradeDate l }

/-- The period filter of `get_top_performers`: current calendar month for
`'mtd'`, else current calendar year. -/
def inPeriod (period : String) (today : SDate) (t : Trade) : Bool :=
  if period == "mtd" then
    t.openedAt.year == today.year && t.openedAt.month == today.month
  else
    t.openedAt.year == today.year

/-- Total realized premium of one ticker within the period. -/
def tickerTotal (l : List Trade) (period : String) (today : SDate)
    (tick : String) : ℚ :=
  premiumSum l fun t => inPeriod period today t && t.ticker == tick

/-- Insert a row into a list kept in non-increasing order of totals. -/
def insertByTotal (x : String × ℚ) : List (String × ℚ) → List (String × ℚ)
  | [] => [x]
  | y :: ys => if y.2 ≤ x.2 then x :: y :: ys else y :: insertByTotal x ys

/-- Sort rows in non-increasing order of totals (`ORDER BY total_premium DESC`). -/
def sortByTotalDesc : List (String × ℚ) → List (String × ℚ)
  | [] => []
  | x :: xs => insertByTotal x (sortByTotalDesc xs)

/-- `get_top_performers`: group counted trades of the period by ticker, sum
realized premium, order by total descending, keep the first `limit` rows. -/
def topPerformers (l : List Trade) (period : String) (today : SDate)
    (limit : Nat) : List (String × ℚ) :=
  let qual := l.filter fun t => countsPremium t && inPeriod period today t
  let ticks := (qual.map Trade.ticker).dedup
  let rows := ticks.map fun tk => (tk, tickerTotal l period today tk)
  (sortByTotalDesc rows).take limit

/-- A stock position (the columns the assignment updater touches). -/
structure Position where
  ticker : String
  sharesOwned : Int
  costBasis : ℚ
  deriving DecidableEq, Repr

/-- `_submit_assignment`, PUT branch: buying shares. New share count is
`old + shares`; cost basis becomes the weighted average, falling back to
`cost` when the new share count is not positive. -/
def applyPutAssignment (p : Position) (shares : Int) (cost : ℚ) : Position :=
  let newShares := p.sharesOwned + shares
  let oldCost := p.costBasis * (p.sharesOwned : ℚ)
  let newCost := oldCost + cost * (shares : ℚ)
  let avgCost := if 0 < newShares then newCost / (newShares : ℚ) else cost
  { p with sharesOwned := newShares, costBasis := avgCost }

/-- `_submit_assignment`, CALL branch: selling shares. New share count is
`max(0, old - shares)`; the cost basis is not updated. -/
def applyCallAssignment (p : Position) (shares : Int) : Position :=
  { p with sharesOwned := max 0 (p.sharesOwned - shares) }

/-! ## Spec-side definitions (written from the specification's wording, to
be compared with the definitions above, which come from the source) -/

/-- The projection exactly as the spec states it: the anchored formula
whenever the anchor year equals the current year, the calendar formula
otherwise, with 0 exactly when the applicable divisor *equals* 0. -/
def specProjectedAsStated (l : List Trade) (today : SDate) : ℚ :=
  let ytd := ytdPremium l today
  let calFormula : ℚ :=
    let e := today.ord - (SDate.mk today.year 1 1).ord + 1
    let y : Int := if isleap today.year then 366 else 365
    if e = 0 then 0 else ytd / (e : ℚ) * (y : ℚ)
  match firstTradeDate l with
  | some a =>
    if a.year = today.year then
      let d := today.ord - a.ord + 1
      let r := (SDate.mk today.year 12 31).ord - today.ord
      if d = 0 then 0 else ytd / (d : ℚ) * ((d + r : Int) : ℚ)
    else calFormula
  | none => calFormula

/-- The inclusive lower bound of the week window as the spec states it:
`anchor_date + 7 × floor((today - anchor_date).days / 7)`, else `today`. -/
def specWeekLowerBound (l : List Trade) (today : SDate) : Int :=
  match firstTradeDate l with
  | some a => a.ord + 7 * Int.fdiv (today.ord - a.ord) 7
  | none => today.ord

/-- The week premium as the spec states it: the sum of
`premium × quantity × 100` over trades of type CC or CSP with status other
than OPEN opened on or after the week's lower bound. -/
def specWeekSum (l : List Trade) (today : SDate) : ℚ :=
  ((l.filter fun t =>
      (t.type == TradeType.CC || t.type == TradeType.CSP) &&
      !(t.status == TradeStatus.OPEN) &&
      decide (specWeekLowerBound l today ≤ t.openedAt.ord)).map
    fun t => t.premium * (t.quantity : ℚ) * 100).sum

/-- The YTD premium as the spec states it: the sum of
`premium × quantity × 100` over non-open CC/CSP trades whose `opened_at`
year equals the anchor year when an anchor exists, else the current year. -/
def specYtdSum (l : List Trade) (today : SDate) : ℚ :=
  let yr : Int :=
    match firstTradeDate l with
    | some a => a.year
    | none => today.year
  ((l.filter fun t =>
      (t.type == TradeType.CC || t.type == TradeType.CSP) &&
      !(t.status == TradeStatus.OPEN) && t.openedAt.year == yr).map
    fun t => t.premium * (t.quantity : ℚ) * 100).sum

/-- The per-ticker period sum as the spec states it: realized premium of the
ticker's non-open CC/CSP trades opened in the current calendar month for
`'mtd'`, else in the current calendar year. -/
def specTickerPeriodSum (l : List Trade) (period : String) (today : SDate)
    (tick : String) : ℚ :=
  ((l.filter fun t =>
      (t.type == TradeType.CC || t.type == TradeType.CSP) &&
      !(t.status == TradeStatus.OPEN) &&
      (if period == "mtd"
        then t.openedAt.year == today.year && t.openedAt.month == today.month
        else t.openedAt.year == today.year) &&
      t.ticker == tick).map fun t => t.premium * (t.quantity : ℚ) * 100).sum

/-! ## Theorems -/

/-- C1, counterexample: a ledger whose single (counted) CC trade is opened
later in the same year than the query date. The anchor year equals the
current year and the days-elapsed divisor is `-91`, not zero, so the claim
as stated demands `ytd / (-91) × (-91 + 305)`, yet the code returns 0. -/
theorem C1_projected_counterexample :
    (premiumSummary [⟨"A", .CC, 1, 1, .EXPIRED, ⟨2026, 6, 1⟩⟩] ⟨2026, 3, 1⟩).projected
        = 0 ∧
    specProjectedAsStated [⟨"A", .CC, 1, 1, .EXPIRED, ⟨2026, 6, 1⟩⟩] ⟨2026, 3, 1⟩
        = -21400 / 91 ∧
    (premiumSummary [⟨"A", .CC, 1, 1, .EXPIRED, ⟨2026, 6, 1⟩⟩] ⟨2026, 3, 1⟩).projected
        ≠ specProjectedAsStated [⟨"A", .CC, 1, 1, .EXPIRED, ⟨2026, 6, 1⟩⟩] ⟨2026, 3, 1⟩ := by
  have hf : firstTradeDate [⟨"A", .CC, 1, 1, .EXPIRED, ⟨2026, 6, 1⟩⟩]
      = some ⟨2026, 6, 1⟩ := by decide
  have hy : ytdPremium [⟨"A", .CC, 1, 1, .EXPIRED, ⟨2026, 6, 1⟩⟩] ⟨2026, 3, 1⟩ = 100 := by
    simp only [ytdPremium, premiumSum, startYear, hf]
    rw [show (List.filter _ _ : List Trade)
      = [⟨"A", .CC, 1, 1, .EXPIRED, ⟨2026, 6, 1⟩⟩] from by decide]
    norm_num [realized]
  have ho1 : SDate.ord ⟨2026, 3, 1⟩ = 20513 := by decide
  have ho2 : SDate.ord ⟨2026, 6, 1⟩ = 20605 := by decide
  have ho3 : SDate.ord ⟨2026, 12, 31⟩ = 20818 := by decide
  have hcode : (premiumSummary [⟨"A", .CC, 1, 1, .EXPIRED, ⟨2026, 6, 1⟩⟩]
      ⟨2026, 3, 1⟩).projected = 0 := by
    simp only [premiumSummary, projectedPremium, hf, hy, ho1, ho2, ho3]
    norm_num
  have hspec : specProjectedAsStated [⟨"A", .CC, 1, 1, .EXPIRED, ⟨2026, 6, 1⟩⟩]
      ⟨2026, 3, 1⟩ = -21400 / 91 := by
    simp only [specProjectedAsStated, hf, hy, ho1, ho2, ho3]
    norm_num
  exact ⟨hcode, hspec, by rw [hcode, hspec]; norm_num⟩

/-- C1, amended: when an anchor exists and its year equals today's year,
`projected = ytd / d × (d + r)` with `d = (today - anchor).days + 1` and
`r = (Dec 31 - today).days` provided `d > 0`; otherwise the calendar-year
formula `ytd / e × y` provided `e > 0`; whenever the applicable divisor is
zero *or negative*, the projection is 0 rather than an error. -/
theorem C1_projected_amended (l : List Trade) (today : SDate) :
    (∀ a, firstTradeDate l = some a → a.year = today.year →
      (premiumSummary l today).projected =
        (if 0 < today.ord - a.ord + 1 then
          (premiumSummary l today).ytd / ((today.ord - a.ord + 1 : Int) : ℚ) *
            ((today.ord - a.ord + 1 + ((SDate.mk today.year 12 31).ord - today.ord) : Int) : ℚ)
         else 0)) ∧
    ((firstTradeDate l = none ∨
        ∃ a, firstTradeDate l = some a ∧ a.year ≠ today.year) →
      (premiumSummary l today).projected =
        (if 0 < today.ord - (SDate.mk today.year 1 1).ord + 1 then
          (premiumSummary l today).ytd /
              ((today.ord - (SDate.mk today.year 1 1).ord + 1 : Int) : ℚ) *
            (((if isleap today.year then 366 else 365 : Int)) : ℚ)
         else 0)) := by
  constructor
  · intro a ha hy
    simp only [premiumSummary, projectedPremium, ha, hy, if_true]
  · rintro (ha | ⟨a, ha, hy⟩)
    · simp only [premiumSummary, projectedPremium, ha]
    · simp only [premiumSummary, projectedPremium, ha, if_neg hy]

/-- C1 witness: anchored on 2026-01-06 and queried on 2026-03-01 (55 days
elapsed, 305 remaining), the projection of a 100-dollar YTD is
`100 / 55 × 360 = 7200/11`. -/
theorem C1_projected_amended_witness :
    (premiumSummary [⟨"A", .CC, 1, 1, .EXPIRED, ⟨2026, 1, 6⟩⟩] ⟨2026, 3, 1⟩).projected
      = 7200 / 11 := by
  have h := (C1_projected_amended [⟨"A", .CC, 1, 1, .EXPIRED, ⟨2026, 1, 6⟩⟩]
    ⟨2026, 3, 1⟩).1 ⟨2026, 1, 6⟩ (by decide) (by decide)
  have hf : firstTradeDate [⟨"A", .CC, 1, 1, .EXPIRED, ⟨2026, 1, 6⟩⟩]
      = some ⟨2026, 1, 6⟩ := by decide
  have hy : ytdPremium [⟨"A", .CC, 1, 1, .EXPIRED, ⟨2026, 1, 6⟩⟩] ⟨2026, 3, 1⟩ = 100 := by
    simp only [ytdPremium, premiumSum, startYear, hf]
    rw [show (List.filter _ _ : List Trade)
      = [⟨"A", .CC, 1, 1, .EXPIRED, ⟨2026, 1, 6⟩⟩] from by decide]
    norm_num [realized]
  rw [h]
  simp only [premiumSummary, hy,
    show SDate.ord ⟨2026, 3, 1⟩ = 20513 from by decide,
    show SDate.ord ⟨2026, 1, 6⟩ = 20459 from by decide,
    show SDate.ord ⟨2026, 12, 31⟩ = 20818 from by decide]
  norm_num

/-- C2 helper: the source's week-start ordinal agrees with the spec's
`anchor + 7 × floor((today - anchor).days / 7)` form. -/
theorem weekStart_eq_specBound (l : List Trade) (today : SDate) :
    currentWeekStartOrd l today = specWeekLowerBound l today := by
  unfold currentWeekStartOrd specWeekLowerBound
  cases firstTradeDate l <;> simp [mul_comm]

/-- C2: `premium_summary().week` is the sum of realized premium over non-open
CC/CSP trades opened on or after the week lower bound
`anchor + 7 × floor((today - anchor).days / 7)` (or `today` with no anchor). -/
theorem C2_week_premium (l : List Trade) (today : SDate) :
    (premiumSummary l today).week = specWeekSum l today := by
  show weekPremium l today = specWeekSum l today
  unfold weekPremium specWeekSum premiumSum
  simp only [weekStart_eq_specBound]
  refine congrArg _ (congrArg _ (List.filter_congr fun t _ => ?_))
  simp only [countsPremium]
  cases t.type <;> rfl

/-- C4: `premium_summary().ytd` is the sum of realized premium over non-open
CC/CSP trades whose `opened_at` year equals the anchor's year when an anchor
exists, else today's calendar year. -/
theorem C4_ytd_premium (l : List Trade) (today : SDate) :
    (premiumSummary l today).ytd = specYtdSum l today := by
  show ytdPremium l today = specYtdSum l today
  unfold ytdPremium specYtdSum premiumSum startYear
  cases hft : firstTradeDate l <;>
    simp only [hft] <;>
    refine congrArg _ (congrArg _ (List.filter_congr fun t _ => ?_)) <;>
    simp only [countsPremium] <;>
    cases t.type <;> rfl

/-- C8: recording a put assignment of `n` shares at cost-per-share `c` on a
position with `s0 ≥ 0` shares and basis `b0` yields `s0 + n` shares with the
weighted-average cost basis `(b0*s0 + c*n) / (s0 + n)`, falling back to `c`
when `s0 + n = 0`; in particular two assignments of 100 shares at 20.0 and
100 shares at 30.0 on an empty position give 200 shares at basis 25.0. -/
theorem C8_put_assignment (p : Position) (n : Int) (c : ℚ)
    (h0 : 0 ≤ p.sharesOwned) (hn : 0 ≤ n) :
    (applyPutAssignment p n c).sharesOwned = p.sharesOwned + n ∧
    (applyPutAssignment p n c).costBasis =
      (if p.sharesOwned + n = 0 then c
       else (p.costBasis * (p.sharesOwned : ℚ) + c * (n : ℚ)) /
         ((p.sharesOwned + n : Int) : ℚ)) ∧
    (applyPutAssignment (applyPutAssignment ⟨"T", 0, 0⟩ 100 20) 100 30).sharesOwned
        = 200 ∧
    (applyPutAssignment (applyPutAssignment ⟨"T", 0, 0⟩ 100 20) 100 30).costBasis
        = 25 := by
  refine ⟨rfl, ?_, by norm_num [applyPutAssignment], by norm_num [applyPutAssignment]⟩
  simp only [applyPutAssignment]
  by_cases hz : p.sharesOwned + n = 0
  · have : ¬ 0 < p.sharesOwned + n := by omega
    simp [hz, this]
  · have : 0 < p.sharesOwned + n := by omega
    simp [hz, this]

/-- C8 witness at a concrete input. -/
theorem C8_put_assignment_witness :
    (applyPutAssignment ⟨"X", 5, 2⟩ 3 4).sharesOwned = 5 + 3 ∧
    (applyPutAssignment ⟨"X", 5, 2⟩ 3 4).costBasis = (2 * 5 + 4 * 3) / ((8 : Int) : ℚ) := by
  have h := C8_put_assignment ⟨"X", 5, 2⟩ 3 4 (by norm_num) (by norm_num)
  refine ⟨h.1, ?_⟩
  have h2 := h.2.1
  norm_num at h2 ⊢
  exact h2

/-- C3: the week number is 0 when no anchor exists, is
`floor((today - anchor).days / 7) + 1` when one does (1-based), and advances
by exactly one every 7 days, with no reset at calendar-year boundaries. -/
theorem C3_week_number (l : List Trade) (today : SDate) :
    (firstTradeDate l = none → currentWeekNumber l today = 0) ∧
    (∀ a, firstTradeDate l = some a →
      currentWeekNumber l today = Int.fdiv (today.ord - a.ord) 7 + 1) ∧
    (∀ later : SDate, later.ord = today.ord + 7 → firstTradeDate l ≠ none →
      currentWeekNumber l later = currentWeekNumber l today + 1) := by
  refine ⟨fun h => by simp [currentWeekNumber, h],
    fun a h => by simp [currentWeekNumber, h], ?_⟩
  intro later hl hne
  cases hft : firstTradeDate l with
  | none => exact absurd hft hne
  | some a =>
    simp only [currentWeekNumber, hft, hl]
    have harith : today.ord + 7 - a.ord = today.ord - a.ord + 1 * 7 := by ring
    rw [harith, Int.fdiv_eq_ediv _ (by norm_num), Int.fdiv_eq_ediv _ (by norm_num),
      Int.add_mul_ediv_right _ _ (by norm_num : (7 : Int) ≠ 0)]

/-- C3 witness: a one-trade ledger anchored on 2026-01-06, queried two weeks
later, is in week 3; seven days further it is in week 4. -/
theorem C3_week_number_witness :
    currentWeekNumber [⟨"W", .CC, 2, 1, .EXPIRED, ⟨2026, 1, 6⟩⟩] ⟨2026, 1, 20⟩ = 3 ∧
    currentWeekNumber [⟨"W", .CC, 2, 1, .EXPIRED, ⟨2026, 1, 6⟩⟩] ⟨2026, 1, 27⟩ = 4 := by
  have h := (C3_week_number [⟨"W", .CC, 2, 1, .EXPIRED, ⟨2026, 1, 6⟩⟩]
    ⟨2026, 1, 20⟩).2.1 ⟨2026, 1, 6⟩ (by decide)
  have h2 := (C3_week_number [⟨"W", .CC, 2, 1, .EXPIRED, ⟨2026, 1, 6⟩⟩]
    ⟨2026, 1, 20⟩).2.2 ⟨2026, 1, 27⟩ (by decide) (by decide)
  rw [h] at h2 ⊢
  exact ⟨by decide, by rw [h2]; decide⟩

/-- C5: on a ledger with no CC/CSP trades, the anchor is undefined, the week
number is 0, and the YTD and projected premium are both 0 — no error paths. -/
theorem C5_no_anchor_totality (l : List Trade) (today : SDate)
    (h : ∀ t ∈ l, isPremiumType t.type = false) :
    firstTradeDate l = none ∧
    currentWeekNumber l today = 0 ∧
    (premiumSummary l today).ytd = 0 ∧
    (premiumSummary l today).projected = 0 := by
  have hfil : (l.filter fun t => isPremiumType t.type) = [] :=
    List.filter_eq_nil_iff.mpr (by intro t ht; simp [h t ht])
  have hftd : firstTradeDate l = none := by simp [firstTradeDate, hfil]
  have hcnt : ∀ p : Trade → Bool, (l.filter fun t => countsPremium t && p t) = [] := by
    intro p
    exact List.filter_eq_nil_iff.mpr (by intro t ht; simp [countsPremium, h t ht])
  have hytd : ytdPremium l today = 0 := by
    simp [ytdPremium, premiumSum, hcnt]
  refine ⟨hftd, by simp [currentWeekNumber, hftd], by simpa [premiumSummary], ?_⟩
  simp only [premiumSummary, projectedPremium, hftd, hytd]
  split <;> simp

/-- C5 witness: a ledger holding only an ASSIGNMENT trade behaves like the
empty ledger for anchoring, week numbering, YTD and projection. -/
theorem C5_no_anchor_totality_witness :
    firstTradeDate [⟨"Z", .ASSIGNMENT, 5, 1, .CLOSED, ⟨2026, 2, 2⟩⟩] = none ∧
    currentWeekNumber [⟨"Z", .ASSIGNMENT, 5, 1, .CLOSED, ⟨2026, 2, 2⟩⟩] ⟨2026, 2, 3⟩ = 0 ∧
    (premiumSummary [⟨"Z", .ASSIGNMENT, 5, 1, .CLOSED, ⟨2026, 2, 2⟩⟩] ⟨2026, 2, 3⟩).ytd = 0 ∧
    (premiumSummary [⟨"Z", .ASSIGNMENT, 5, 1, .CLOSED, ⟨2026, 2, 2⟩⟩] ⟨2026, 2, 3⟩).projected = 0 :=
  C5_no_anchor_totality _ ⟨2026, 2, 3⟩ (by decide)

/-- C9: recording a call assignment of `n` shares sets the share count to
`max 0 (s0 - n)`, hence never negative, and leaves the cost basis and the
ticker unchanged; in particular assigning 100 shares away from a 50-share
position yields 0 shares. -/
theorem C9_call_assignment (p : Position) (n : Int) :
    (applyCallAssignment p n).sharesOwned = max 0 (p.sharesOwned - n) ∧
    0 ≤ (applyCallAssignment p n).sharesOwned ∧
    (applyCallAssignment p n).costBasis = p.costBasis ∧
    (applyCallAssignment p n).ticker = p.ticker ∧
    (applyCallAssignment ⟨"T", 50, 10⟩ 100).sharesOwned = 0 := by
  refine ⟨rfl, ?_, rfl, rfl, by norm_num [applyCallAssignment]⟩
  simp only [applyCallAssignment]
  exact le_max_left 0 _

/-- Fiberwise decomposition of a realized-premium sum over a finite set of
keys covering all trades of the list. -/
theorem sum_fiber (s : List Trade) (f : Trade → ℚ) (k : Trade → Int)
    (K : Finset Int) (hK : ∀ x ∈ s, k x ∈ K) :
    (∑ y ∈ K, ((s.filter fun x => k x == y).map f).sum) = (s.map f).sum := by
  induction s with
  | nil => simp
  | cons x s ih =>
    have hx : k x ∈ K := hK x (by simp)
    have hs : ∀ z ∈ s, k z ∈ K := fun z hz => hK z (by simp [hz])
    simp only [List.filter_cons]
    have hsplit : ∀ y,
        ((if (k x == y) = true then x :: (s.filter fun z => k z == y)
          else s.filter fun z => k z == y).map f).sum
        = (if k x = y then f x else 0) + ((s.filter fun z => k z == y).map f).sum := by
      intro y
      by_cases h : k x = y
      · simp [h]
      · simp [h]
    rw [Finset.sum_congr rfl fun y _ => hsplit y, Finset.sum_add_distrib,
      Finset.sum_ite_eq K (k x) fun _ => f x, if_pos hx, ih hs]
    simp

/-- C6: the yearly-mapping values sum to the total realized premium of all
non-open CC/CSP trades in the ledger; and when the anchor's year is the only
year present in the ledger, that sum equals `premium_summary().ytd`. -/
theorem C6_yearly_totals (l : List Trade) (today : SDate) :
    ((yearlyPremiums l).map Prod.snd).sum
      = ((l.filter countsPremium).map realized).sum ∧
    (∀ a, firstTradeDate l = some a → (∀ t ∈ l, t.openedAt.year = a.year) →
      ((yearlyPremiums l).map Prod.snd).sum = (premiumSummary l today).ytd) := by
  have hfib : ∀ y : Int,
      premiumSum l (fun t => t.openedAt.year == y)
        = (((l.filter countsPremium).filter fun t => t.openedAt.year == y).map
            realized).sum := by
    intro y
    unfold premiumSum
    rw [List.filter_filter]
    refine congrArg _ (congrArg _ (List.filter_congr fun t _ => ?_))
    exact Bool.and_comm _ _
  have hmain : ((yearlyPremiums l).map Prod.snd).sum
      = ((l.filter countsPremium).map realized).sum := by
    unfold yearlyPremiums tradeYears
    rw [List.map_map]
    have hdd : (((l.filter countsPremium).map fun t => t.openedAt.year).dedup).toFinset
        = ((l.filter countsPremium).map fun t => t.openedAt.year).toFinset := by
      ext y
      simp [List.mem_toFinset, List.mem_dedup]
    have hnd := List.nodup_dedup ((l.filter countsPremium).map fun t => t.openedAt.year)
    rw [show ((((l.filter countsPremium).map fun t => t.openedAt.year).dedup).map
        ((Prod.snd ∘ fun y => (y, premiumSum l fun t => t.openedAt.year == y)))).sum
      = ∑ y ∈ (((l.filter countsPremium).map fun t => t.openedAt.year).dedup).toFinset,
          premiumSum l (fun t => t.openedAt.year == y)
      from (List.sum_toFinset _ hnd).symm]
    rw [hdd]
    rw [Finset.sum_congr rfl fun y _ => hfib y]
    exact sum_fiber (l.filter countsPremium) realized (fun t => t.openedAt.year) _
      fun x hx => List.mem_toFinset.mpr (List.mem_map_of_mem _ hx)
  refine ⟨hmain, fun a ha hall => ?_⟩
  rw [hmain]
  show _ = ytdPremium l today
  unfold ytdPremium premiumSum startYear
  rw [ha]
  refine congrArg _ (congrArg _ (List.filter_congr fun t ht => ?_))
  simp [hall t ht, countsPremium]

/-- C6 witness: a two-trade single-year ledger anchored in 2026; the yearly
values sum to 300, which equals the YTD total. -/
theorem C6_yearly_totals_witness :
    ((yearlyPremiums [⟨"A", .CC, 1, 1, .EXPIRED, ⟨2026, 1, 6⟩⟩,
        ⟨"B", .CSP, 2, 1, .CLOSED, ⟨2026, 2, 3⟩⟩]).map Prod.snd).sum
      = (premiumSummary [⟨"A", .CC, 1, 1, .EXPIRED, ⟨2026, 1, 6⟩⟩,
          ⟨"B", .CSP, 2, 1, .CLOSED, ⟨2026, 2, 3⟩⟩] ⟨2026, 3, 1⟩).ytd ∧
    (premiumSummary [⟨"A", .CC, 1, 1, .EXPIRED, ⟨2026, 1, 6⟩⟩,
        ⟨"B", .CSP, 2, 1, .CLOSED, ⟨2026, 2, 3⟩⟩] ⟨2026, 3, 1⟩).ytd = 300 := by
  have h := (C6_yearly_totals [⟨"A", .CC, 1, 1, .EXPIRED, ⟨2026, 1, 6⟩⟩,
      ⟨"B", .CSP, 2, 1, .CLOSED, ⟨2026, 2, 3⟩⟩] ⟨2026, 3, 1⟩).2
    ⟨2026, 1, 6⟩ (by decide) (by decide)
  refine ⟨h, ?_⟩
  have hf : firstTradeDate [⟨"A", .CC, 1, 1, .EXPIRED, ⟨2026, 1, 6⟩⟩,
      ⟨"B", .CSP, 2, 1, .CLOSED, ⟨2026, 2, 3⟩⟩] = some ⟨2026, 1, 6⟩ := by decide
  show ytdPremium _ _ = 300
  simp only [ytdPremium, premiumSum, startYear, hf]
  rw [show (List.filter _ _ : List Trade)
    = [⟨"A", .CC, 1, 1, .EXPIRED, ⟨2026, 1, 6⟩⟩,
       ⟨"B", .CSP, 2, 1, .CLOSED, ⟨2026, 2, 3⟩⟩] from by decide]
  norm_num [realized]

/-- Membership through `insertByTotal`. -/
theorem mem_insertByTotal {x a : String × ℚ} {ys : List (String × ℚ)} :
    a ∈ insertByTotal x ys ↔ a = x ∨ a ∈ ys := by
  induction ys with
  | nil => simp [insertByTotal]
  | cons y ys ih =>
    simp only [insertByTotal]
    by_cases h : y.2 ≤ x.2
    · rw [if_pos h]
      simp only [List.mem_cons]
    · rw [if_neg h]
      simp only [List.mem_cons, ih]
      tauto

/-- Membership through `sortByTotalDesc`. -/
theorem mem_sortByTotalDesc {a : String × ℚ} {xs : List (String × ℚ)} :
    a ∈ sortByTotalDesc xs ↔ a ∈ xs := by
  induction xs with
  | nil => simp [sortByTotalDesc]
  | cons x xs ih => simp [sortByTotalDesc, mem_insertByTotal, ih]

/-- Inserting into a list ordered by non-increasing totals keeps it ordered. -/
theorem pairwise_insertByTotal {x : String × ℚ} {ys : List (String × ℚ)}
    (h : ys.Pairwise fun a b => b.2 ≤ a.2) :
    (insertByTotal x ys).Pairwise fun a b => b.2 ≤ a.2 := by
  induction ys with
  | nil => simp [insertByTotal]
  | cons y ys ih =>
    rcases List.pairwise_cons.mp h with ⟨hy, hys⟩
    simp only [insertByTotal]
    by_cases hc : y.2 ≤ x.2
    · rw [if_pos hc]
      refine List.pairwise_cons.mpr ⟨?_, h⟩
      intro b hb
      rcases List.mem_cons.mp hb with rfl | hb
      · exact hc
      · exact le_trans (hy b hb) hc
    · rw [if_neg hc]
      refine List.pairwise_cons.mpr ⟨?_, ih hys⟩
      intro b hb
      rcases mem_insertByTotal.mp hb with rfl | hb
      · exact le_of_not_le hc
      · exact hy b hb

/-- The insertion sort orders rows by non-increasing totals. -/
theorem pairwise_sortByTotalDesc (xs : List (String × ℚ)) :
    (sortByTotalDesc xs).Pairwise fun a b => b.2 ≤ a.2 := by
  induction xs with
  | nil => simp [sortByTotalDesc]
  | cons x xs ih => exact pairwise_insertByTotal ih

/-- The source's per-ticker total agrees with the spec's period sum. -/
theorem tickerTotal_eq_spec (l : List Trade) (period : String) (today : SDate)
    (tick : String) :
    tickerTotal l period today tick = specTickerPeriodSum l period today tick := by
  unfold tickerTotal specTickerPeriodSum premiumSum inPeriod
  refine congrArg _ (congrArg _ (List.filter_congr fun t _ => ?_))
  simp only [countsPremium]
  cases t.type <;> cases hp : period == "mtd" <;>
    simp [isPremiumType, Bool.and_assoc] <;> rfl

/-- C7: `top_performers` returns at most `limit` rows, each pairing a ticker
with the realized premium of its non-open CC/CSP trades in the (calendar)
period, in non-increasing order of total. -/
theorem C7_top_performers (l : List Trade) (period : String) (today : SDate)
    (limit : Nat) :
    (topPerformers l period today limit).length ≤ limit ∧
    (∀ pr ∈ topPerformers l period today limit,
      pr.2 = specTickerPeriodSum l period today pr.1) ∧
    (topPerformers l period today limit).Pairwise fun a b => b.2 ≤ a.2 := by
  refine ⟨List.length_take_le _ _, ?_, ?_⟩
  · intro pr hpr
    simp only [topPerformers] at hpr
    have h1 := (List.take_sublist _ _).subset hpr
    have h2 := mem_sortByTotalDesc.mp h1
    rcases List.mem_map.mp h2 with ⟨tk, _, heq⟩
    rw [← heq]
    exact tickerTotal_eq_spec l period today tk
  · exact List.Pairwise.sublist (List.take_sublist _ _)
      (pairwise_sortByTotalDesc _)

/-- C7 witness: a single January CC trade; `top_performers('mtd', 5)` lists
its ticker with total 100, which matches the spec's period sum. -/
theorem C7_top_performers_witness :
    (topPerformers [⟨"A", .CC, 1, 1, .EXPIRED, ⟨2026, 1, 6⟩⟩] "mtd" ⟨2026, 1, 31⟩ 5).length
        ≤ 5 ∧
    (100 : ℚ) = specTickerPeriodSum [⟨"A", .CC, 1, 1, .EXPIRED, ⟨2026, 1, 6⟩⟩]
      "mtd" ⟨2026, 1, 31⟩ "A" := by
  have htt : tickerTotal [⟨"A", .CC, 1, 1, .EXPIRED, ⟨2026, 1, 6⟩⟩]
      "mtd" ⟨2026, 1, 31⟩ "A" = 100 := by
    unfold tickerTotal premiumSum
    rw [show (List.filter _ _ : List Trade)
      = [⟨"A", .CC, 1, 1, .EXPIRED, ⟨2026, 1, 6⟩⟩] from by decide]
    norm_num [realized]
  have hq : (List.filter
      (fun t => countsPremium t && inPeriod "mtd" ⟨2026, 1, 31⟩ t)
      [⟨"A", .CC, 1, 1, .EXPIRED, ⟨2026, 1, 6⟩⟩])
      = [(⟨"A", .CC, 1, 1, .EXPIRED, ⟨2026, 1, 6⟩⟩ : Trade)] := by decide
  have hm : topPerformers [⟨"A", .CC, 1, 1, .EXPIRED, ⟨2026, 1, 6⟩⟩]
      "mtd" ⟨2026, 1, 31⟩ 5 = [("A", 100)] := by
    unfold topPerformers
    simp only [hq]
    rw [show ((List.map Trade.ticker
        [(⟨"A", .CC, 1, 1, .EXPIRED, ⟨2026, 1, 6⟩⟩ : Trade)]).dedup : List String)
      = ["A"] from by decide]
    simp only [List.map_cons, List.map_nil, htt]
    rfl
  refine ⟨(C7_top_performers _ "mtd" ⟨2026, 1, 31⟩ 5).1, ?_⟩
  exact (C7_top_performers [⟨"A", .CC, 1, 1, .EXPIRED, ⟨2026, 1, 6⟩⟩]
    "mtd" ⟨2026, 1, 31⟩ 5).2.1 ("A", 100) (by rw [hm]; exact List.mem_singleton.mpr rfl)

/-- Filtering drops a middle element on which the predicate is false. -/
theorem filter_middle (l1 l2 : List Trade) (t : Trade) (p : Trade → Bool)
    (hp : p t = false) :
    (l1 ++ t :: l2).filter p = (l1 ++ l2).filter p := by
  simp [List.filter_append, List.filter_cons, hp]

/-- C10: a trade whose type is not CC or CSP contributes to no premium
aggregate — inserting it anywhere in the ledger leaves the week, month, YTD,
yearly and projected values of `premium_summary` and every `top_performers`
result unchanged. -/
theorem C10_non_premium_frame (l1 l2 : List Trade) (t : Trade) (today : SDate)
    (ht : isPremiumType t.type = false) :
    (premiumSummary (l1 ++ t :: l2) today).week
        = (premiumSummary (l1 ++ l2) today).week ∧
    (premiumSummary (l1 ++ t :: l2) today).month
        = (premiumSummary (l1 ++ l2) today).month ∧
    (premiumSummary (l1 ++ t :: l2) today).ytd
        = (premiumSummary (l1 ++ l2) today).ytd ∧
    (premiumSummary (l1 ++ t :: l2) today).yearly
        = (premiumSummary (l1 ++ l2) today).yearly ∧
    (premiumSummary (l1 ++ t :: l2) today).projected
        = (premiumSummary (l1 ++ l2) today).projected ∧
    (∀ period limit, topPerformers (l1 ++ t :: l2) period today limit
        = topPerformers (l1 ++ l2) period today limit) := by
  have hcp : countsPremium t = false := by simp [countsPremium, ht]
  have hftd : firstTradeDate (l1 ++ t :: l2) = firstTradeDate (l1 ++ l2) := by
    unfold firstTradeDate
    rw [filter_middle l1 l2 t _ ht]
  have hps : ∀ p : Trade → Bool,
      premiumSum (l1 ++ t :: l2) p = premiumSum (l1 ++ l2) p := by
    intro p
    unfold premiumSum
    rw [filter_middle l1 l2 t _ (by simp [hcp])]
  have hytd : ytdPremium (l1 ++ t :: l2) today = ytdPremium (l1 ++ l2) today := by
    unfold ytdPremium startYear
    simp only [hftd]
    exact hps _
  refine ⟨?_, hps _, hytd, ?_, ?_, ?_⟩
  · show weekPremium _ _ = weekPremium _ _
    unfold weekPremium currentWeekStartOrd
    simp only [hftd]
    exact hps _
  · show yearlyPremiums _ = yearlyPremiums _
    unfold yearlyPremiums tradeYears
    rw [filter_middle l1 l2 t _ hcp]
    simp only [hps]
  · show projectedPremium _ _ = projectedPremium _ _
    unfold projectedPremium
    simp only [hftd, hytd]
  · intro period limit
    unfold topPerformers
    rw [filter_middle l1 l2 t _ (by simp [hcp])]
    have htk : ∀ tk, tickerTotal (l1 ++ t :: l2) period today tk
        = tickerTotal (l1 ++ l2) period today tk := fun tk => hps _
    simp only [htk]

/-- C10 witness: appending a zero-premium ASSIGNMENT record to a one-CC
ledger changes neither the YTD total nor the top performers. -/
theorem C10_non_premium_frame_witness :
    (premiumSummary [⟨"A", .CC, 1, 1, .EXPIRED, ⟨2026, 1, 6⟩⟩,
        ⟨"A", .ASSIGNMENT, 0, 1, .OPEN, ⟨2026, 2, 2⟩⟩] ⟨2026, 3, 1⟩).ytd
      = (premiumSummary [⟨"A", .CC, 1, 1, .EXPIRED, ⟨2026, 1, 6⟩⟩] ⟨2026, 3, 1⟩).ytd ∧
    topPerformers [⟨"A", .CC, 1, 1, .EXPIRED, ⟨2026, 1, 6⟩⟩,
        ⟨"A", .ASSIGNMENT, 0, 1, .OPEN, ⟨2026, 2, 2⟩⟩] "mtd" ⟨2026, 3, 1⟩ 5
      = topPerformers [⟨"A", .CC, 1, 1, .EXPIRED, ⟨2026, 1, 6⟩⟩] "mtd" ⟨2026, 3, 1⟩ 5 := by
  have h := C10_non_premium_frame [⟨"A", .CC, 1, 1, .EXPIRED, ⟨2026, 1, 6⟩⟩] []
    ⟨"A", .ASSIGNMENT, 0, 1, .OPEN, ⟨2026, 2, 2⟩⟩ ⟨2026, 3, 1⟩ (by decide)
  exact ⟨h.2.2.1, h.2.2.2.2.2 "mtd" 5⟩

end WheelTracker
